import Mathlib

/-!
Verification of the Mergington High School activities API (`src/app.py`).

The program has two independent components:
* an in-memory activity roster (a dict from activity name to activity data),
  mutated by the `signup_for_activity` and `unregister_from_activity` handlers;
* a SQLite-backed testimonial store (table `testimonials`), accessed by the
  `get_testimonials`, `submit_testimonial` and `toggle_testimonial_approval`
  handlers.

We embed the roster as an association list from names to activity records,
and the testimonial table as a list of rows together with the AUTOINCREMENT
counter.  Handlers become pure functions from state to (new state, result);
a `raise HTTPException` becomes an `Except.error` carrying the status code
and detail string of the Python exception.
-/

namespace App

/-- An activity record: the value stored under each name in the Python
`activities` dict. -/
structure Activity where
  description : String
  schedule : String
  max_participants : Nat
  participants : List String
deriving Repr, DecidableEq

/-- The in-memory roster: the `activities` dict, as an association list from
activity name to activity record (insertion order, unique keys). -/
abbrev Roster := List (String × Activity)

/-- Dict lookup `activities[activity_name]` (and the `in` test):
first entry whose key equals the name. -/
def findActivity (r : Roster) (name : String) : Option Activity :=
  match r with
  | [] => none
  | (n, a) :: rest => if n = name then some a else findActivity rest name

/-- Mutating `activities[activity_name]` in place: replace the value at the
first entry whose key equals the name, leaving every other entry untouched. -/
def updateActivity (r : Roster) (name : String) (f : Activity → Activity) : Roster :=
  match r with
  | [] => []
  | (n, a) :: rest =>
    if n = name then (n, f a) :: rest else (n, a) :: updateActivity rest name f

/-- `HTTPException(status_code=..., detail=...)`. -/
structure HTTPException where
  status_code : Nat
  detail : String
deriving Repr, DecidableEq

/-- The 404 raised when an activity name is absent from the roster. -/
def activityNotFound : HTTPException := ⟨404, "Activity not found"⟩

/-- The 400 raised when the email is already in the activity's participants. -/
def alreadyEnrolled : HTTPException := ⟨400, "Student is already signed up"⟩

/-- The 400 raised when the email is not in the activity's participants. -/
def notEnrolled : HTTPException := ⟨400, "Student is not signed up for this activity"⟩

/-- The 404 raised when no testimonial has the requested id. -/
def testimonialNotFound : HTTPException := ⟨404, "Testimonial not found"⟩

/-- `POST /activities/{activity_name}/signup`: validate the activity exists,
validate the student is not already signed up, then append the email to the
activity's participant list and return the success message. -/
def signup_for_activity (roster : Roster) (activity_name email : String) :
    Roster × Except HTTPException String :=
  match findActivity roster activity_name with
  | none => (roster, .error activityNotFound)
  | some activity =>
    if email ∈ activity.participants then
      (roster, .error alreadyEnrolled)
    else
      (updateActivity roster activity_name
        (fun a => { a with participants := a.participants ++ [email] }),
       .ok s!"Signed up {email} for {activity_name}")

/-- `DELETE /activities/{activity_name}/unregister`: validate the activity
exists, validate the student is signed up, then remove the email
(`list.remove` deletes the first matching entry) and return the message. -/
def unregister_from_activity (roster : Roster) (activity_name email : String) :
    Roster × Except HTTPException String :=
  match findActivity roster activity_name with
  | none => (roster, .error activityNotFound)
  | some activity =>
    if email ∈ activity.participants then
      (updateActivity roster activity_name
        (fun a => { a with participants := a.participants.erase email }),
       .ok s!"Unregistered {email} from {activity_name}")
    else
      (roster, .error notEnrolled)

/-- The static seed data of the `activities` dict. -/
def activities : Roster :=
  [("Chess Club",
    { description := "Learn strategies and compete in chess tournaments"
      schedule := "Fridays, 3:30 PM - 5:00 PM"
      max_participants := 12
      participants := ["michael@mergington.edu", "daniel@mergington.edu"] }),
   ("Programming Class",
    { description := "Learn programming fundamentals and build software projects"
      schedule := "Tuesdays and Thursdays, 3:30 PM - 4:30 PM"
      max_participants := 20
      participants := ["emma@mergington.edu", "sophia@mergington.edu"] }),
   ("Gym Class",
    { description := "Physical education and sports activities"
      schedule := "Mondays, Wednesdays, Fridays, 2:00 PM - 3:00 PM"
      max_participants := 30
      participants := ["john@mergington.edu", "olivia@mergington.edu"] }),
   ("Soccer Team",
    { description := "Join the school soccer team and compete in matches"
      schedule := "Tuesdays and Thursdays, 4:00 PM - 5:30 PM"
      max_participants := 22
      participants := ["liam@mergington.edu", "noah@mergington.edu"] }),
   ("Basketball Team",
    { description := "Practice and play basketball with the school team"
      schedule := "Wednesdays and Fridays, 3:30 PM - 5:00 PM"
      max_participants := 15
      participants := ["ava@mergington.edu", "mia@mergington.edu"] }),
   ("Art Club",
    { description := "Explore your creativity through painting and drawing"
      schedule := "Thursdays, 3:30 PM - 5:00 PM"
      max_participants := 15
      participants := ["amelia@mergington.edu", "harper@mergington.edu"] }),
   ("Drama Club",
    { description := "Act, direct, and produce plays and performances"
      schedule := "Mondays and Wednesdays, 4:00 PM - 5:30 PM"
      max_participants := 20
      participants := ["ella@mergington.edu", "scarlett@mergington.edu"] }),
   ("Math Club",
    { description := "Solve challenging problems and participate in math competitions"
      schedule := "Tuesdays, 3:30 PM - 4:30 PM"
      max_participants := 10
      participants := ["james@mergington.edu", "benjamin@mergington.edu"] }),
   ("Debate Team",
    { description := "Develop public speaking and argumentation skills"
      schedule := "Fridays, 4:00 PM - 5:30 PM"
      max_participants := 12
      participants := ["charlotte@mergington.edu", "henry@mergington.edu"] })]

/-- One row of the `testimonials` table
(`id, author, text, approved, created_at`); `approved` is stored as an
integer (0/1) exactly as in the SQLite schema. -/
structure Testimonial where
  id : Nat
  author : String
  text : String
  approved : Nat
  created_at : String
deriving Repr, DecidableEq

/-- The testimonial store: the table rows in rowid (insertion) order,
plus the AUTOINCREMENT counter that supplies the next `id`. -/
structure TestimonialDB where
  rows : List Testimonial
  nextId : Nat
deriving Repr, DecidableEq

/-- A row as serialized by `GET /testimonials`: `approved` rendered as a
boolean via Python `bool(r[3])`. -/
structure TestimonialOut where
  id : Nat
  author : String
  text : String
  approved : Bool
  created_at : String
deriving Repr, DecidableEq

/-- The dict built for each row by `get_testimonials`. -/
def toOut (r : Testimonial) : TestimonialOut :=
  ⟨r.id, r.author, r.text, r.approved != 0, r.created_at⟩

/-- The `ORDER BY created_at DESC` comparison: row `a` comes no later than
row `b` when `a.created_at` is at least `b.created_at`. -/
def createdDesc (a b : Testimonial) : Prop := b.created_at ≤ a.created_at

instance : DecidableRel createdDesc := fun a b =>
  inferInstanceAs (Decidable (b.created_at ≤ a.created_at))

instance : IsTotal Testimonial createdDesc :=
  ⟨fun a b => le_total b.created_at a.created_at⟩

instance : IsTrans Testimonial createdDesc :=
  ⟨fun _ _ _ hab hbc => le_trans hbc hab⟩

/-- `GET /testimonials`: `SELECT ... WHERE approved=1 ORDER BY created_at DESC`,
then serialize each row.  The SQL filter keeps rows with `approved = 1`; the
`DESC` order sorts by the `created_at` string, most recent (largest) first. -/
def get_testimonials (db : TestimonialDB) : List TestimonialOut :=
  ((db.rows.filter (fun r => r.approved == 1)).insertionSort createdDesc).map toOut

/-- The JSON object returned by `submit_testimonial`:
`{"id": tid, "author": ..., "text": ..., "approved": False}`. -/
structure SubmitResponse where
  id : Nat
  author : String
  text : String
  approved : Bool
deriving Repr, DecidableEq

/-- `POST /testimonials`: `INSERT INTO testimonials (author, text, approved,
created_at) VALUES (?, ?, 0, ?)` with `created_at = datetime.utcnow()`
(passed here as the `now` argument), then return the response dict built
from `cur.lastrowid` and the payload. -/
def submit_testimonial (db : TestimonialDB) (author text now : String) :
    TestimonialDB × SubmitResponse :=
  let row : Testimonial := ⟨db.nextId, author, text, 0, now⟩
  (⟨db.rows ++ [row], db.nextId + 1⟩,
   ⟨db.nextId, author, text, false⟩)

/-- The JSON object returned by `toggle_testimonial_approval`:
`{"id": testimonial_id, "approved": bool(new_val)}`. -/
structure ToggleResponse where
  id : Nat
  approved : Bool
deriving Repr, DecidableEq

/-- `PUT /testimonials/{testimonial_id}/approve`: select the row with the
given id (404 if none), compute `new_val = 0 if row[0] == 1 else 1`, run
`UPDATE testimonials SET approved = new_val WHERE id = ?`, and return the id
with `bool(new_val)`. -/
def toggle_testimonial_approval (db : TestimonialDB) (testimonial_id : Nat) :
    TestimonialDB × Except HTTPException ToggleResponse :=
  match db.rows.find? (fun r => r.id == testimonial_id) with
  | none => (db, .error testimonialNotFound)
  | some row =>
    let new_val : Nat := if row.approved == 1 then 0 else 1
    (⟨db.rows.map (fun r =>
        if r.id == testimonial_id then { r with approved := new_val } else r),
      db.nextId⟩,
     .ok ⟨testimonial_id, new_val != 0⟩)

/-- A minimal JSON value type, used to compare the shape of the handlers'
responses with the serialization of a full `Testimonial` record. -/
inductive Json where
  | str (s : String)
  | nat (n : Nat)
  | bool (b : Bool)
deriving Repr, DecidableEq

/-- Modelled from the spec: the JSON serialization of a full Testimonial
record (all five fields of the data model, `approved` as a boolean), as the
spec's endpoint table promises for `POST /testimonials`
("created Testimonial, JSON"). -/
def testimonialJson (t : Testimonial) : List (String × Json) :=
  [("id", .nat t.id), ("author", .str t.author), ("text", .str t.text),
   ("approved", .bool (t.approved != 0)), ("created_at", .str t.created_at)]

/-- The JSON object `submit_testimonial` actually returns. -/
def submitResponseJson (r : SubmitResponse) : List (String × Json) :=
  [("id", .nat r.id), ("author", .str r.author), ("text", .str r.text),
   ("approved", .bool r.approved)]

/-- One roster mutation: the two state-changing handlers. -/
inductive RosterOp where
  | signup (name email : String)
  | unregister (name email : String)
deriving Repr, DecidableEq

/-- Apply one handler to the roster, keeping the resulting roster state
(whether the request succeeded or raised). -/
def applyOp (r : Roster) (op : RosterOp) : Roster :=
  match op with
  | .signup n e => (signup_for_activity r n e).1
  | .unregister n e => (unregister_from_activity r n e).1

/-- Apply a sequence of signup/unregister requests in order. -/
def applyOps (r : Roster) (ops : List RosterOp) : Roster := ops.foldl applyOp r

/-- Roster invariant: every activity's participant list is duplicate-free. -/
def RosterNodup (r : Roster) : Prop :=
  ∀ p ∈ r, (Prod.snd p).participants.Nodup

instance : DecidablePred RosterNodup := fun r =>
  inferInstanceAs (Decidable (∀ p ∈ r, (Prod.snd p).participants.Nodup))

/-- Store invariant: every row id is below the AUTOINCREMENT counter
(so the next assigned id is fresh). -/
def DBIds (db : TestimonialDB) : Prop :=
  ∀ r ∈ db.rows, r.id < db.nextId

end App

deriving instance DecidableEq for Except

namespace App

example : (signup_for_activity activities "Chess Club" "x@mergington.edu").2 =
    .ok "Signed up x@mergington.edu for Chess Club" := by decide

example : (signup_for_activity activities "Chess Club" "michael@mergington.edu").2 =
    .error alreadyEnrolled := by decide

example : (signup_for_activity activities "Knitting" "x@mergington.edu").2 =
    .error activityNotFound := by decide

example : (unregister_from_activity activities "Chess Club" "michael@mergington.edu").2 =
    .ok "Unregistered michael@mergington.edu from Chess Club" := by decide

example : get_testimonials ⟨[⟨1, "a", "t", 1, "2024"⟩, ⟨2, "b", "u", 0, "2025"⟩], 3⟩ =
    [⟨1, "a", "t", true, "2024"⟩] := by decide

/-! ### Roster helper lemmas -/

theorem findActivity_mem {r : Roster} {name : String} {a : Activity}
    (h : findActivity r name = some a) : (name, a) ∈ r := by
  induction r with
  | nil => simp [findActivity] at h
  | cons p rest ih =>
    obtain ⟨n, b⟩ := p
    by_cases hn : n = name
    · subst hn
      simp [findActivity] at h
      subst h
      exact List.mem_cons_self _ _
    · simp [findActivity, hn] at h
      exact List.mem_cons_of_mem _ (ih h)

theorem findActivity_update_self {r : Roster} {name : String} {a : Activity}
    {f : Activity → Activity} (h : findActivity r name = some a) :
    findActivity (updateActivity r name f) name = some (f a) := by
  induction r with
  | nil => simp [findActivity] at h
  | cons p rest ih =>
    obtain ⟨n, b⟩ := p
    by_cases hn : n = name
    · subst hn
      simp [findActivity] at h
      subst h
      simp [updateActivity, findActivity]
    · simp [findActivity, hn] at h
      simp [updateActivity, findActivity, hn]
      exact ih h

theorem findActivity_update_ne {r : Roster} {name other : String}
    {f : Activity → Activity} (hne : other ≠ name) :
    findActivity (updateActivity r name f) other = findActivity r other := by
  induction r with
  | nil => simp [updateActivity]
  | cons p rest ih =>
    obtain ⟨n, b⟩ := p
    by_cases hn : n = name
    · subst hn
      have : ¬ n = other := fun h => hne h.symm
      simp [updateActivity, findActivity, this]
    · by_cases ho : n = other
      · subst ho
        simp [updateActivity, findActivity, hn]
      · simp [updateActivity, findActivity, hn, ho]
        exact ih

theorem mem_updateActivity {r : Roster} {name : String} {f : Activity → Activity}
    {p : String × Activity} (hp : p ∈ updateActivity r name f) :
    p ∈ r ∨ ∃ a, findActivity r name = some a ∧ p = (name, f a) := by
  induction r with
  | nil => simp [updateActivity] at hp
  | cons q rest ih =>
    obtain ⟨n, b⟩ := q
    by_cases hn : n = name
    · subst hn
      simp [updateActivity] at hp
      rcases hp with hp | hp
      · exact Or.inr ⟨b, by simp [findActivity], hp⟩
      · exact Or.inl (List.mem_cons_of_mem _ hp)
    · simp [updateActivity, hn] at hp
      rcases hp with hp | hp
      · exact Or.inl (by simp [hp])
      · rcases ih hp with h | ⟨a, ha, hpa⟩
        · exact Or.inl (List.mem_cons_of_mem _ h)
        · exact Or.inr ⟨a, by simp [findActivity, hn, ha], hpa⟩

theorem signup_fst_other {r : Roster} {n e other : String} (h : other ≠ n) :
    findActivity (signup_for_activity r n e).1 other = findActivity r other := by
  unfold signup_for_activity
  cases hf : findActivity r n with
  | none => rfl
  | some a =>
    by_cases hm : e ∈ a.participants
    · simp [hm]
    · simp [hm]
      exact findActivity_update_ne h

theorem unregister_fst_other {r : Roster} {n e other : String} (h : other ≠ n) :
    findActivity (unregister_from_activity r n e).1 other = findActivity r other := by
  unfold unregister_from_activity
  cases hf : findActivity r n with
  | none => rfl
  | some a =>
    by_cases hm : e ∈ a.participants
    · simp [hm]
      exact findActivity_update_ne h
    · simp [hm]

/-! ### Claim theorems: activity roster -/

/-- Claim C1: for every activity name and email, `signup_for_activity` fails
with the 404 "Activity not found" when the name is absent; fails with the 400
"Student is already signed up" when the email is already a participant;
otherwise appends the email to the end of the participant list and returns
the success message.  Enrolling the same fresh email twice succeeds the first
time and fails the second time with the roster (hence the participant count)
unchanged by the second call. -/
theorem signup_contract (roster : Roster) (name email : String) :
    (findActivity roster name = none →
      signup_for_activity roster name email = (roster, .error activityNotFound)) ∧
    (∀ a, findActivity roster name = some a → email ∈ a.participants →
      signup_for_activity roster name email = (roster, .error alreadyEnrolled)) ∧
    (∀ a, findActivity roster name = some a → email ∉ a.participants →
      (signup_for_activity roster name email).2 =
          .ok s!"Signed up {email} for {name}" ∧
      findActivity (signup_for_activity roster name email).1 name =
          some { a with participants := a.participants ++ [email] } ∧
      signup_for_activity (signup_for_activity roster name email).1 name email =
          ((signup_for_activity roster name email).1, .error alreadyEnrolled)) := by
  refine ⟨fun h => ?_, fun a ha hm => ?_, fun a ha hm => ?_⟩
  · simp [signup_for_activity, h]
  · simp [signup_for_activity, ha, hm]
  · have hfst : (signup_for_activity roster name email).1 =
        updateActivity roster name
          (fun a => { a with participants := a.participants ++ [email] }) := by
      simp [signup_for_activity, ha, hm]
    have hfind : findActivity (signup_for_activity roster name email).1 name =
        some { a with participants := a.participants ++ [email] } := by
      rw [hfst]
      exact findActivity_update_self ha
    refine ⟨by simp [signup_for_activity, ha, hm], hfind, ?_⟩
    have hmem2 : email ∈ (a.participants ++ [email]) := by simp
    generalize hr1 : (signup_for_activity roster name email).1 = r1 at hfind ⊢
    simp [signup_for_activity, hfind, hmem2]

/-- Claim C1 witness: enrolling a fresh email in "Chess Club" succeeds, and
repeating the call fails with "already signed up" leaving the roster as it
was after the first call. -/
theorem signup_contract_witness :
    (signup_for_activity activities "Chess Club" "x@mergington.edu").2 =
      .ok "Signed up x@mergington.edu for Chess Club" ∧
    signup_for_activity (signup_for_activity activities "Chess Club" "x@mergington.edu").1
        "Chess Club" "x@mergington.edu" =
      ((signup_for_activity activities "Chess Club" "x@mergington.edu").1,
        .error alreadyEnrolled) := by
  have h := (signup_contract activities "Chess Club" "x@mergington.edu").2.2
    { description := "Learn strategies and compete in chess tournaments"
      schedule := "Fridays, 3:30 PM - 5:00 PM"
      max_participants := 12
      participants := ["michael@mergington.edu", "daniel@mergington.edu"] }
    (by decide) (by decide)
  exact ⟨h.1, h.2.2⟩

/-- Claim C2: for every activity name and email, `unregister_from_activity`
fails with the 404 "Activity not found" when the name is absent; fails with
the 400 "Student is not signed up for this activity" when the email is not a
participant, leaving the roster unchanged; otherwise removes the first
matching participant entry and returns the success message. -/
theorem unregister_contract (roster : Roster) (name email : String) :
    (findActivity roster name = none →
      unregister_from_activity roster name email = (roster, .error activityNotFound)) ∧
    (∀ a, findActivity roster name = some a → email ∉ a.participants →
      unregister_from_activity roster name email = (roster, .error notEnrolled)) ∧
    (∀ a, findActivity roster name = some a → email ∈ a.participants →
      (unregister_from_activity roster name email).2 =
          .ok s!"Unregistered {email} from {name}" ∧
      findActivity (unregister_from_activity roster name email).1 name =
          some { a with participants := a.participants.erase email }) := by
  refine ⟨fun h => ?_, fun a ha hm => ?_, fun a ha hm => ?_⟩
  · simp [unregister_from_activity, h]
  · simp [unregister_from_activity, ha, hm]
  · have hfst : (unregister_from_activity roster name email).1 =
        updateActivity roster name
          (fun a => { a with participants := a.participants.erase email }) := by
      simp [unregister_from_activity, ha, hm]
    refine ⟨by simp [unregister_from_activity, ha, hm], ?_⟩
    rw [hfst]
    exact findActivity_update_self ha

/-- Claim C2 witness: unregistering an email never enrolled in "Chess Club"
fails with "not signed up" and leaves the roster unchanged; unregistering a
seeded participant succeeds and removes exactly that entry. -/
theorem unregister_contract_witness :
    unregister_from_activity activities "Chess Club" "ghost@mergington.edu" =
      (activities, .error notEnrolled) ∧
    (unregister_from_activity activities "Chess Club" "michael@mergington.edu").2 =
      .ok "Unregistered michael@mergington.edu from Chess Club" ∧
    findActivity
        (unregister_from_activity activities "Chess Club" "michael@mergington.edu").1
        "Chess Club" =
      some { description := "Learn strategies and compete in chess tournaments"
             schedule := "Fridays, 3:30 PM - 5:00 PM"
             max_participants := 12
             participants := ["daniel@mergington.edu"] } := by
  have h1 := (unregister_contract activities "Chess Club" "ghost@mergington.edu").2.1
    { description := "Learn strategies and compete in chess tournaments"
      schedule := "Fridays, 3:30 PM - 5:00 PM"
      max_participants := 12
      participants := ["michael@mergington.edu", "daniel@mergington.edu"] }
    (by decide) (by decide)
  have h2 := (unregister_contract activities "Chess Club" "michael@mergington.edu").2.2
    { description := "Learn strategies and compete in chess tournaments"
      schedule := "Fridays, 3:30 PM - 5:00 PM"
      max_participants := 12
      participants := ["michael@mergington.edu", "daniel@mergington.edu"] }
    (by decide) (by decide)
  exact ⟨h1, h2.1, h2.2⟩

/-- Claim C7: whenever the activity exists and the email is not yet a
participant, signup succeeds with no condition whatsoever on
`max_participants`: the participant list simply grows by one, keeping the
same capacity field, so when the list was already at or above capacity the
resulting list strictly exceeds `max_participants`. -/
theorem signup_ignores_capacity (roster : Roster) (name email : String)
    (a : Activity) (ha : findActivity roster name = some a)
    (hm : email ∉ a.participants) :
    (signup_for_activity roster name email).2 =
        .ok s!"Signed up {email} for {name}" ∧
    ∀ a1, findActivity (signup_for_activity roster name email).1 name = some a1 →
      a1.max_participants = a.max_participants ∧
      a1.participants.length = a.participants.length + 1 ∧
      (a.max_participants ≤ a.participants.length →
        a1.max_participants < a1.participants.length) := by
  have h := (signup_contract roster name email).2.2 a ha hm
  refine ⟨h.1, fun a1 ha1 => ?_⟩
  rw [h.2.1] at ha1
  have : a1 = { a with participants := a.participants ++ [email] } :=
    (Option.some.inj ha1).symm
  subst this
  refine ⟨rfl, by simp, fun hcap => ?_⟩
  simpa using Nat.lt_succ_of_le hcap

/-- Claim C7 witness: an activity whose two seats are both taken still
accepts a third enrollment, ending with 3 participants against
`max_participants = 2`. -/
theorem signup_ignores_capacity_witness :
    (signup_for_activity [("Tiny Club", ⟨"d", "s", 2, ["a@x.edu", "b@x.edu"]⟩)]
        "Tiny Club" "c@x.edu").2 = .ok "Signed up c@x.edu for Tiny Club" ∧
    findActivity (signup_for_activity [("Tiny Club", ⟨"d", "s", 2, ["a@x.edu", "b@x.edu"]⟩)]
        "Tiny Club" "c@x.edu").1 "Tiny Club" =
      some ⟨"d", "s", 2, ["a@x.edu", "b@x.edu", "c@x.edu"]⟩ := by
  have h := signup_ignores_capacity [("Tiny Club", ⟨"d", "s", 2, ["a@x.edu", "b@x.edu"]⟩)]
    "Tiny Club" "c@x.edu" ⟨"d", "s", 2, ["a@x.edu", "b@x.edu"]⟩ (by decide) (by decide)
  exact ⟨h.1, by decide⟩

/-- Claim C10: membership checks are per-activity.  For distinct activities A
and B, an email already enrolled in A still enrolls successfully in B when
not yet in B; and any signup or unregister call on A leaves B's entry
entirely unchanged and preserves A's description, schedule and
`max_participants`. -/
theorem roster_ops_frame (roster : Roster) (A B email email2 : String)
    (aA aB : Activity) (hAB : B ≠ A)
    (hA : findActivity roster A = some aA) (hB : findActivity roster B = some aB) :
    (email ∈ aA.participants → email ∉ aB.participants →
      (signup_for_activity roster B email).2 =
        .ok s!"Signed up {email} for {B}") ∧
    findActivity (signup_for_activity roster A email2).1 B = some aB ∧
    findActivity (unregister_from_activity roster A email2).1 B = some aB ∧
    (∀ a1, findActivity (signup_for_activity roster A email2).1 A = some a1 →
      a1.description = aA.description ∧ a1.schedule = aA.schedule ∧
        a1.max_participants = aA.max_participants) ∧
    (∀ a1, findActivity (unregister_from_activity roster A email2).1 A = some a1 →
      a1.description = aA.description ∧ a1.schedule = aA.schedule ∧
        a1.max_participants = aA.max_participants) := by
  refine ⟨fun _ hnB => ((signup_contract roster B email).2.2 aB hB hnB).1,
    by rw [signup_fst_other hAB]; exact hB,
    by rw [unregister_fst_other hAB]; exact hB,
    fun a1 ha1 => ?_, fun a1 ha1 => ?_⟩
  · by_cases hm : email2 ∈ aA.participants
    · have heq := (signup_contract roster A email2).2.1 aA hA hm
      have ha1' : findActivity roster A = some a1 := by rw [heq] at ha1; exact ha1
      have : a1 = aA := by
        rw [hA] at ha1'
        exact (Option.some.inj ha1').symm
      subst this
      exact ⟨rfl, rfl, rfl⟩
    · have h3 := ((signup_contract roster A email2).2.2 aA hA hm).2.1
      rw [h3] at ha1
      have : a1 = { aA with participants := aA.participants ++ [email2] } :=
        (Option.some.inj ha1).symm
      subst this
      exact ⟨rfl, rfl, rfl⟩
  · by_cases hm : email2 ∈ aA.participants
    · have h3 := ((unregister_contract roster A email2).2.2 aA hA hm).2
      rw [h3] at ha1
      have : a1 = { aA with participants := aA.participants.erase email2 } :=
        (Option.some.inj ha1).symm
      subst this
      exact ⟨rfl, rfl, rfl⟩
    · have heq := (unregister_contract roster A email2).2.1 aA hA hm
      have ha1' : findActivity roster A = some a1 := by rw [heq] at ha1; exact ha1
      have : a1 = aA := by
        rw [hA] at ha1'
        exact (Option.some.inj ha1').symm
      subst this
      exact ⟨rfl, rfl, rfl⟩

/-- Claim C10 witness: michael, enrolled in "Chess Club", successfully signs
up for "Art Club"; and a signup on "Chess Club" leaves the "Art Club" entry
exactly as seeded. -/
theorem roster_ops_frame_witness :
    (signup_for_activity activities "Art Club" "michael@mergington.edu").2 =
      .ok "Signed up michael@mergington.edu for Art Club" ∧
    findActivity (signup_for_activity activities "Chess Club" "new@mergington.edu").1
        "Art Club" =
      some { description := "Explore your creativity through painting and drawing"
             schedule := "Thursdays, 3:30 PM - 5:00 PM"
             max_participants := 15
             participants := ["amelia@mergington.edu", "harper@mergington.edu"] } := by
  have h := roster_ops_frame activities "Chess Club" "Art Club"
    "michael@mergington.edu" "new@mergington.edu"
    { description := "Learn strategies and compete in chess tournaments"
      schedule := "Fridays, 3:30 PM - 5:00 PM"
      max_participants := 12
      participants := ["michael@mergington.edu", "daniel@mergington.edu"] }
    { description := "Explore your creativity through painting and drawing"
      schedule := "Thursdays, 3:30 PM - 5:00 PM"
      max_participants := 15
      participants := ["amelia@mergington.edu", "harper@mergington.edu"] }
    (by decide) (by decide) (by decide)
  exact ⟨h.1 (by decide) (by decide), h.2.1⟩

/-! ### Participant uniqueness -/

theorem rosterNodup_applyOp {r : Roster} (h : RosterNodup r) (op : RosterOp) :
    RosterNodup (applyOp r op) := by
  cases op with
  | signup n e =>
    show RosterNodup (signup_for_activity r n e).1
    cases hf : findActivity r n with
    | none => simpa [signup_for_activity, hf] using h
    | some a =>
      by_cases hm : e ∈ a.participants
      · simpa [signup_for_activity, hf, hm] using h
      · have hfst : (signup_for_activity r n e).1 =
            updateActivity r n (fun a => { a with participants := a.participants ++ [e] }) := by
          simp [signup_for_activity, hf, hm]
        rw [hfst]
        intro p hp
        rcases mem_updateActivity hp with hpr | ⟨a0, ha0, hpa⟩
        · exact h p hpr
        · have : a0 = a := Option.some.inj (ha0.symm.trans hf)
          subst this
          subst hpa
          exact List.nodup_append_comm.mpr
            (List.nodup_cons.mpr ⟨hm, h _ (findActivity_mem hf)⟩)
  | unregister n e =>
    show RosterNodup (unregister_from_activity r n e).1
    cases hf : findActivity r n with
    | none => simpa [unregister_from_activity, hf] using h
    | some a =>
      by_cases hm : e ∈ a.participants
      · have hfst : (unregister_from_activity r n e).1 =
            updateActivity r n (fun a => { a with participants := a.participants.erase e }) := by
          simp [unregister_from_activity, hf, hm]
        rw [hfst]
        intro p hp
        rcases mem_updateActivity hp with hpr | ⟨a0, ha0, hpa⟩
        · exact h p hpr
        · have : a0 = a := Option.some.inj (ha0.symm.trans hf)
          subst this
          subst hpa
          exact (h _ (findActivity_mem hf)).erase e
      · simpa [unregister_from_activity, hf, hm] using h

theorem rosterNodup_applyOps {r : Roster} (h : RosterNodup r) (ops : List RosterOp) :
    RosterNodup (applyOps r ops) := by
  induction ops generalizing r with
  | nil => exact h
  | cons op rest ih => exact ih (rosterNodup_applyOp h op)

theorem count_after_wd_enroll {r : Roster} {name email : String} {b : Activity}
    (hb : findActivity r name = some b) (hmem : email ∈ b.participants)
    (hcount : b.participants.count email = 1) :
    ∀ a3, findActivity
        (applyOp (applyOp r (.unregister name email)) (.signup name email)) name =
        some a3 →
      a3.participants.count email = 1 := by
  intro a3 ha3
  have h2find := ((unregister_contract r name email).2.2 b hb hmem).2
  have hcnt0 : (b.participants.erase email).count email = 0 := by
    rw [List.count_erase_self, hcount]
  have hnot : email ∉ b.participants.erase email := List.count_eq_zero.mp hcnt0
  have h3 := ((signup_contract (unregister_from_activity r name email).1
      name email).2.2 _ h2find hnot).2.1
  have ha3' := ha3
  show a3.participants.count email = 1
  have : findActivity
      (signup_for_activity (unregister_from_activity r name email).1 name email).1 name =
      some a3 := ha3
  rw [h3] at this
  have ha3eq : a3 =
      { b with participants := (b.participants.erase email) ++ [email] } := by
    have := Option.some.inj this
    simpa using this.symm
  subst ha3eq
  simp [List.count_append, hcnt0, List.count_singleton_self]

/-- Claim C9: every activity's participant list in the seed roster is
duplicate-free, every sequence of signup/unregister requests preserves that
uniqueness, and (whenever the activity exists with a duplicate-free list)
signing up, unregistering, then signing up the same email again leaves a
participant list containing that email exactly once. -/
theorem roster_uniqueness_invariant :
    RosterNodup activities ∧
    (∀ ops : List RosterOp, RosterNodup (applyOps activities ops)) ∧
    (∀ (r : Roster) (name email : String) (a : Activity),
      findActivity r name = some a → a.participants.Nodup →
      ∀ a3, findActivity
          (applyOp (applyOp (applyOp r (.signup name email))
            (.unregister name email)) (.signup name email)) name = some a3 →
        a3.participants.count email = 1) := by
  have hseed : RosterNodup activities := by decide
  refine ⟨hseed, fun ops => rosterNodup_applyOps hseed ops, ?_⟩
  intro r name email a ha hnd a3 ha3
  by_cases hm : email ∈ a.participants
  · have heq := (signup_contract r name email).2.1 a ha hm
    have hr1 : applyOp r (.signup name email) = r := congrArg Prod.fst heq
    rw [hr1] at ha3
    exact count_after_wd_enroll ha hm (List.count_eq_one_of_mem hnd hm) a3 ha3
  · have h1 := ((signup_contract r name email).2.2 a ha hm).2.1
    have hmem1 : email ∈ (a.participants ++ [email]) := by simp
    have hcnt1 : ((a.participants ++ [email]).count email) = 1 := by
      simp [List.count_append, List.count_eq_zero.mpr hm, List.count_singleton_self]
    exact count_after_wd_enroll h1 hmem1 hcnt1 a3 ha3

/-- Claim C9 witness: the seed roster is duplicate-free, and running signup,
unregister, signup for a fresh email on "Chess Club" ends with that email
appearing exactly once. -/
theorem roster_uniqueness_invariant_witness :
    RosterNodup activities ∧
    ({ description := "Learn strategies and compete in chess tournaments"
       schedule := "Fridays, 3:30 PM - 5:00 PM"
       max_participants := 12
       participants := ["michael@mergington.edu", "daniel@mergington.edu",
         "x@mergington.edu"] } : Activity).participants.count "x@mergington.edu" = 1 := by
  refine ⟨roster_uniqueness_invariant.1, ?_⟩
  exact roster_uniqueness_invariant.2.2 activities "Chess Club" "x@mergington.edu"
    { description := "Learn strategies and compete in chess tournaments"
      schedule := "Fridays, 3:30 PM - 5:00 PM"
      max_participants := 12
      participants := ["michael@mergington.edu", "daniel@mergington.edu"] }
    (by decide) (by decide)
    { description := "Learn strategies and compete in chess tournaments"
      schedule := "Fridays, 3:30 PM - 5:00 PM"
      max_participants := 12
      participants := ["michael@mergington.edu", "daniel@mergington.edu",
        "x@mergington.edu"] }
    (by decide)

/-! ### Testimonial store helper lemmas -/

theorem find?_map_setApproved {l : List Testimonial} {tid : Nat} {row : Testimonial}
    {v : Nat} (h : l.find? (fun r => r.id == tid) = some row) :
    (l.map (fun r => if r.id == tid then { r with approved := v } else r)).find?
        (fun r => r.id == tid) = some { row with approved := v } := by
  induction l with
  | nil => simp at h
  | cons x xs ih =>
    by_cases hx : x.id = tid
    · rw [List.find?_cons_of_pos _ (by simp [hx])] at h
      have hxr : x = row := Option.some.inj h
      subst hxr
      simp only [List.map_cons, if_pos (by simp [hx] : (x.id == tid) = true)]
      exact List.find?_cons_of_pos _ (by simp [hx])
    · rw [List.find?_cons_of_neg _ (by simp [hx])] at h
      simp only [List.map_cons, if_neg (by simp [hx] : ¬ (x.id == tid) = true)]
      rw [List.find?_cons_of_neg _ (by simp [hx])]
      exact ih h

/-! ### Claim theorems: testimonial store -/

/-- Claim C3: `toggle_testimonial_approval` fails with the 404 "Testimonial
not found" when no row has the requested id, returning the store unchanged;
otherwise it flips the stored `approved` value of that row (0 becomes 1, 1
becomes 0), persists it, and returns the id together with the new approval
state, leaving the number of rows unchanged. -/
theorem toggle_contract (db : TestimonialDB) (tid : Nat) :
    (db.rows.find? (fun r => r.id == tid) = none →
      toggle_testimonial_approval db tid = (db, .error testimonialNotFound)) ∧
    (∀ row, db.rows.find? (fun r => r.id == tid) = some row →
      (toggle_testimonial_approval db tid).2 =
          .ok ⟨tid, (if row.approved == 1 then 0 else 1 : Nat) != 0⟩ ∧
      (toggle_testimonial_approval db tid).1.rows.find? (fun r => r.id == tid) =
          some { row with approved := if row.approved == 1 then 0 else 1 } ∧
      (row.approved = 0 → (if row.approved == 1 then 0 else 1 : Nat) = 1) ∧
      (row.approved = 1 → (if row.approved == 1 then 0 else 1 : Nat) = 0) ∧
      (toggle_testimonial_approval db tid).1.rows.length = db.rows.length ∧
      (toggle_testimonial_approval db tid).1.nextId = db.nextId) := by
  refine ⟨fun h => by simp [toggle_testimonial_approval, h], fun row hrow => ?_⟩
  refine ⟨by simp [toggle_testimonial_approval, hrow], ?_, ?_, ?_, ?_, ?_⟩
  · have : (toggle_testimonial_approval db tid).1.rows =
        db.rows.map (fun r => if r.id == tid then
          { r with approved := if row.approved == 1 then 0 else 1 } else r) := by
      simp [toggle_testimonial_approval, hrow]
    rw [this]
    exact find?_map_setApproved hrow
  · intro h0; simp [h0]
  · intro h1; simp [h1]
  · simp [toggle_testimonial_approval, hrow]
  · simp [toggle_testimonial_approval, hrow]

/-- Claim C3 witness: toggling id 9999 on a store holding only row 1 fails
with 404 and leaves the store unchanged; toggling id 1 (approved 0) returns
`{id := 1, approved := true}` and persists the flipped flag. -/
theorem toggle_contract_witness :
    toggle_testimonial_approval ⟨[⟨1, "a", "t", 0, "2024"⟩], 2⟩ 9999 =
      (⟨[⟨1, "a", "t", 0, "2024"⟩], 2⟩, .error testimonialNotFound) ∧
    (toggle_testimonial_approval ⟨[⟨1, "a", "t", 0, "2024"⟩], 2⟩ 1).2 =
      .ok ⟨1, true⟩ ∧
    (toggle_testimonial_approval ⟨[⟨1, "a", "t", 0, "2024"⟩], 2⟩ 1).1.rows.find?
        (fun r => r.id == 1) = some ⟨1, "a", "t", 1, "2024"⟩ := by
  have h1 := (toggle_contract ⟨[⟨1, "a", "t", 0, "2024"⟩], 2⟩ 9999).1 (by decide)
  have h2 := (toggle_contract ⟨[⟨1, "a", "t", 0, "2024"⟩], 2⟩ 1).2
    ⟨1, "a", "t", 0, "2024"⟩ (by decide)
  exact ⟨h1, h2.1, h2.2.1⟩

/-- Claim C4: `get_testimonials` never fails (it is a total function); its
result is exactly the serialization of the rows with `approved = 1` (a
permutation of that filtered list), arranged in descending `created_at`
order; when no row is approved it is the empty list. -/
theorem get_testimonials_spec (db : TestimonialDB) :
    List.Perm (get_testimonials db)
      ((db.rows.filter (fun r => r.approved == 1)).map toOut) ∧
    (get_testimonials db).Pairwise (fun a b => b.created_at ≤ a.created_at) ∧
    ((∀ r ∈ db.rows, r.approved ≠ 1) → get_testimonials db = []) := by
  refine ⟨?_, ?_, fun h => ?_⟩
  · exact (List.perm_insertionSort createdDesc _).map toOut
  · exact List.Pairwise.map toOut (fun a b hab => hab)
      (List.sorted_insertionSort createdDesc _)
  · have : db.rows.filter (fun r => r.approved == 1) = [] :=
      List.filter_eq_nil_iff.mpr (fun r hr => by simpa using h r hr)
    simp [get_testimonials, this]

/-- Claim C4 witness: on a store with one approved and one unapproved row the
result lists exactly the approved row, and on a store with no approved row
the result is empty. -/
theorem get_testimonials_spec_witness :
    get_testimonials ⟨[⟨1, "a", "t", 1, "2024"⟩, ⟨2, "b", "u", 0, "2025"⟩], 3⟩ =
      [⟨1, "a", "t", true, "2024"⟩] ∧
    get_testimonials ⟨[⟨1, "a", "t", 0, "2024"⟩], 2⟩ = [] := by
  refine ⟨by decide, ?_⟩
  exact (get_testimonials_spec ⟨[⟨1, "a", "t", 0, "2024"⟩], 2⟩).2.2 (by decide)

/-- Claim C5 (amended): `submit_testimonial` appends a new row with
`approved = 0` and `created_at` equal to the current time `now`, assigns it
the AUTOINCREMENT id (fresh: no existing row carries it) and bumps the
counter, and returns a JSON object carrying the new row's id, author, text
and `approved = false` — but not its `created_at`, so the response is not
the full Testimonial record. -/
theorem submit_contract (db : TestimonialDB) (author text now : String)
    (hids : DBIds db) :
    (submit_testimonial db author text now).1.rows =
        db.rows ++ [⟨db.nextId, author, text, 0, now⟩] ∧
    (submit_testimonial db author text now).1.nextId = db.nextId + 1 ∧
    db.nextId ∉ db.rows.map (fun r => r.id) ∧
    DBIds (submit_testimonial db author text now).1 ∧
    (submit_testimonial db author text now).2 = ⟨db.nextId, author, text, false⟩ ∧
    (submitResponseJson (submit_testimonial db author text now).2).lookup
        "created_at" = none := by
  refine ⟨rfl, rfl, ?_, ?_, rfl, by simp [submitResponseJson, List.lookup]⟩
  · intro hmem
    rcases List.mem_map.mp hmem with ⟨r, hr, hid⟩
    exact absurd hid (Nat.ne_of_lt (hids r hr))
  · intro r hr
    rcases List.mem_append.mp hr with hold | hnew
    · exact Nat.lt_succ_of_lt (hids r hold)
    · rcases List.mem_singleton.mp hnew with rfl
      exact Nat.lt_succ_self _

/-- Claim C5 counterexample: submitting "Jane" / "Great club!" to an empty
store persists a full row including its `created_at`, but the JSON object
the handler returns differs from the JSON serialization of that stored
Testimonial: the response carries no "created_at" key at all. -/
theorem submit_response_omits_created_at :
    (submit_testimonial ⟨[], 1⟩ "Jane" "Great club!" "2025-01-01T00:00:00").1.rows =
        [⟨1, "Jane", "Great club!", 0, "2025-01-01T00:00:00"⟩] ∧
    submitResponseJson
        (submit_testimonial ⟨[], 1⟩ "Jane" "Great club!" "2025-01-01T00:00:00").2 ≠
      testimonialJson ⟨1, "Jane", "Great club!", 0, "2025-01-01T00:00:00"⟩ ∧
    (submitResponseJson
        (submit_testimonial ⟨[], 1⟩ "Jane" "Great club!" "2025-01-01T00:00:00").2).lookup
        "created_at" = none ∧
    (testimonialJson ⟨1, "Jane", "Great club!", 0, "2025-01-01T00:00:00"⟩).lookup
        "created_at" = some (.str "2025-01-01T00:00:00") := by
  refine ⟨rfl, by decide, by decide, by decide⟩

/-- Claim C5 witness: submitting to an empty store (whose id invariant holds
trivially) stores the row with `approved = 0` and the given timestamp, and
answers with id 1, the payload and `approved = false`. -/
theorem submit_contract_witness :
    (submit_testimonial ⟨[], 1⟩ "Jane" "Great club!" "2025-01-01T00:00:00").1.rows =
        [⟨1, "Jane", "Great club!", 0, "2025-01-01T00:00:00"⟩] ∧
    (submit_testimonial ⟨[], 1⟩ "Jane" "Great club!" "2025-01-01T00:00:00").2 =
        ⟨1, "Jane", "Great club!", false⟩ := by
  have h := submit_contract ⟨[], 1⟩ "Jane" "Great club!" "2025-01-01T00:00:00"
    (by intro r hr; simp at hr)
  exact ⟨h.1, h.2.2.2.2.1⟩

/-- Claim C6 (amended): `submit_testimonial` performs no validation at all:
whenever the author or the text is the empty string the call still succeeds,
a testimonial row is created, and the handler returns the usual success
payload. -/
theorem submit_accepts_empty_strings (db : TestimonialDB) (author text now : String)
    (_h : author = "" ∨ text = "") :
    (submit_testimonial db author text now).1.rows =
        db.rows ++ [⟨db.nextId, author, text, 0, now⟩] ∧
    (submit_testimonial db author text now).2 = ⟨db.nextId, author, text, false⟩ :=
  ⟨rfl, rfl⟩

/-- Claim C6 witness: an empty author next to a non-empty text is accepted:
the row is stored and the success payload returned. -/
theorem submit_accepts_empty_strings_witness :
    (submit_testimonial ⟨[], 1⟩ "" "Great club!" "2025-01-01").1.rows =
        [⟨1, "", "Great club!", 0, "2025-01-01"⟩] ∧
    (submit_testimonial ⟨[], 1⟩ "" "Great club!" "2025-01-01").2 =
        ⟨1, "", "Great club!", false⟩ :=
  submit_accepts_empty_strings ⟨[], 1⟩ "" "Great club!" "2025-01-01" (Or.inl rfl)

/-- Claim C6 counterexample: far from failing with a validation error,
submitting empty author and text to an empty store creates one row and
returns the usual success payload. -/
theorem submit_empty_creates_row :
    (submit_testimonial ⟨[], 1⟩ "" "" "2025-01-01T00:00:00").1.rows.length = 1 ∧
    (submit_testimonial ⟨[], 1⟩ "" "" "2025-01-01T00:00:00").2 =
        ⟨1, "", "", false⟩ := by decide

/-! ### Visibility through submit / toggle -/

theorem mem_ids_get {db : TestimonialDB} {n : Nat} :
    (n ∈ (get_testimonials db).map (fun t => t.id)) ↔
    ∃ r, r ∈ db.rows ∧ r.approved = 1 ∧ r.id = n := by
  simp only [get_testimonials, List.mem_map, List.mem_insertionSort,
    List.mem_filter, toOut, beq_iff_eq]
  constructor
  · rintro ⟨t, ⟨r, ⟨hr, ha⟩, rfl⟩, hid⟩
    exact ⟨r, hr, ha, hid⟩
  · rintro ⟨r, hr, ha, hid⟩
    exact ⟨_, ⟨r, ⟨hr, ha⟩, rfl⟩, hid⟩

theorem map_setApproved_append {l : List Testimonial} {N v : Nat} {row : Testimonial}
    (hfresh : ∀ r ∈ l, r.id ≠ N) (hrow : row.id = N) :
    (l ++ [row]).map (fun r => if r.id == N then { r with approved := v } else r) =
      l ++ [{ row with approved := v }] := by
  rw [List.map_append]
  congr 1
  · calc l.map (fun r => if r.id == N then { r with approved := v } else r)
        = l.map id := List.map_congr_left (fun r hr => by simp [hfresh r hr])
      _ = l := List.map_id l
  · simp [hrow]

theorem toggle_on_append {rows : List Testimonial} {N nid : Nat} {row : Testimonial}
    (hfresh : ∀ r ∈ rows, r.id ≠ N) (hrow : row.id = N) :
    toggle_testimonial_approval ⟨rows ++ [row], nid⟩ N =
      (⟨rows ++ [{ row with approved := if row.approved == 1 then 0 else 1 }], nid⟩,
       .ok ⟨N, (if row.approved == 1 then 0 else 1 : Nat) != 0⟩) := by
  have hfind : (rows ++ [row]).find? (fun r => r.id == N) = some row := by
    rw [List.find?_append, List.find?_eq_none.mpr (fun r hr => by simp [hfresh r hr])]
    simp [hrow]
  simp only [toggle_testimonial_approval, hfind]
  rw [map_setApproved_append hfresh hrow]

/-- Claim C8: a testimonial created by `submit_testimonial` comes back with
`approved = false` and its id is absent from `get_testimonials`; after one
`toggle_testimonial_approval` on that id it appears there; after a second
toggle it is absent again. -/
theorem submit_toggle_listApproved (db : TestimonialDB) (author text now : String)
    (hids : DBIds db) :
    (submit_testimonial db author text now).2.approved = false ∧
    (submit_testimonial db author text now).2.id ∉
      (get_testimonials (submit_testimonial db author text now).1).map
        (fun t => t.id) ∧
    (submit_testimonial db author text now).2.id ∈
      (get_testimonials (toggle_testimonial_approval
          (submit_testimonial db author text now).1
          (submit_testimonial db author text now).2.id).1).map
        (fun t => t.id) ∧
    (submit_testimonial db author text now).2.id ∉
      (get_testimonials (toggle_testimonial_approval
          (toggle_testimonial_approval (submit_testimonial db author text now).1
            (submit_testimonial db author text now).2.id).1
          (submit_testimonial db author text now).2.id).1).map
        (fun t => t.id) := by
  have hfresh : ∀ r ∈ db.rows, r.id ≠ db.nextId :=
    fun r hr => Nat.ne_of_lt (hids r hr)
  have htog1 := @toggle_on_append db.rows db.nextId (db.nextId + 1)
    ⟨db.nextId, author, text, 0, now⟩ hfresh rfl
  have htog2 := @toggle_on_append db.rows db.nextId (db.nextId + 1)
    ⟨db.nextId, author, text, 1, now⟩ hfresh rfl
  simp only [show ((0 : Nat) == 1) = false from rfl,
    show ((1 : Nat) == 1) = true from rfl] at htog1 htog2
  refine ⟨rfl, ?_, ?_, ?_⟩
  · intro hmem
    rcases mem_ids_get.mp hmem with ⟨r, hr, ha, hid⟩
    rcases List.mem_append.mp hr with hold | hnewm
    · exact hfresh r hold hid
    · rcases List.mem_singleton.mp hnewm with rfl
      simp at ha
  · show (submit_testimonial db author text now).2.id ∈
      (get_testimonials (toggle_testimonial_approval
        ⟨db.rows ++ [⟨db.nextId, author, text, 0, now⟩], db.nextId + 1⟩
        db.nextId).1).map (fun t => t.id)
    rw [htog1]
    exact mem_ids_get.mpr ⟨⟨db.nextId, author, text, 1, now⟩,
      List.mem_append_right _ (List.mem_singleton.mpr rfl), rfl, rfl⟩
  · show (submit_testimonial db author text now).2.id ∉
      (get_testimonials (toggle_testimonial_approval
        (toggle_testimonial_approval
          ⟨db.rows ++ [⟨db.nextId, author, text, 0, now⟩], db.nextId + 1⟩
          db.nextId).1
        db.nextId).1).map (fun t => t.id)
    rw [htog1]
    show (submit_testimonial db author text now).2.id ∉
      (get_testimonials (toggle_testimonial_approval
        ⟨db.rows ++ [⟨db.nextId, author, text, 1, now⟩], db.nextId + 1⟩
        db.nextId).1).map (fun t => t.id)
    rw [htog2]
    intro hmem
    rcases mem_ids_get.mp hmem with ⟨r, hr, ha, hid⟩
    rcases List.mem_append.mp hr with hold | hnewm
    · exact hfresh r hold hid
    · rcases List.mem_singleton.mp hnewm with rfl
      simp at ha

/-- Claim C8 witness: on an empty store, the submitted testimonial (id 1) is
invisible, visible after one toggle, and invisible again after a second
toggle. -/
theorem submit_toggle_listApproved_witness :
    (submit_testimonial ⟨[], 1⟩ "Jane" "Great club!" "2025-01-01").2.approved = false ∧
    (submit_testimonial ⟨[], 1⟩ "Jane" "Great club!" "2025-01-01").2.id ∉
      (get_testimonials (submit_testimonial ⟨[], 1⟩ "Jane" "Great club!" "2025-01-01").1).map
        (fun t => t.id) ∧
    (submit_testimonial ⟨[], 1⟩ "Jane" "Great club!" "2025-01-01").2.id ∈
      (get_testimonials (toggle_testimonial_approval
          (submit_testimonial ⟨[], 1⟩ "Jane" "Great club!" "2025-01-01").1
          (submit_testimonial ⟨[], 1⟩ "Jane" "Great club!" "2025-01-01").2.id).1).map
        (fun t => t.id) ∧
    (submit_testimonial ⟨[], 1⟩ "Jane" "Great club!" "2025-01-01").2.id ∉
      (get_testimonials (toggle_testimonial_approval
          (toggle_testimonial_approval
            (submit_testimonial ⟨[], 1⟩ "Jane" "Great club!" "2025-01-01").1
            (submit_testimonial ⟨[], 1⟩ "Jane" "Great club!" "2025-01-01").2.id).1
          (submit_testimonial ⟨[], 1⟩ "Jane" "Great club!" "2025-01-01").2.id).1).map
        (fun t => t.id) :=
  submit_toggle_listApproved ⟨[], 1⟩ "Jane" "Great club!" "2025-01-01"
    (by intro r hr; simp at hr)

end App
